import Mathlib

/-!
# LibTessSwift build glue

A verification development for the two headers of the LibTessSwift pod:

* `libtess2/objc-clang.h`, a compatibility shim that installs fallback definitions for
  the Swift annotation names, and
* `LibTessSwift-umbrella.h`, the umbrella header with the two version symbols.

Both files are preprocessor text.  They are embedded as state transformers over a
preprocessor state (`PP`): every directive of a header is one combinator application,
in source order, and the token lists are the source text split into preprocessing tokens.
-/

namespace LibTess

/-! ## Data model -/

/-- A preprocessing token, by spelling. -/
abbrev Token := String

/-- What a name is `#define`d as: an object-like replacement list, or a function-like one
with its parameter names. -/
inductive MDef
  | object (body : List Token)
  | function (params : List Token) (body : List Token)
  deriving DecidableEq, Repr

/-- A toolchain configuration together with the definitions in force.

`table` maps a name to its current definition.  `has_feature` and `has_attribute`
describe the two feature queries: `none` when the toolchain does not provide the query,
`some l` when it does, `l` being the argument spellings for which the query answers 1 in
this configuration.  The two query names are reserved to the toolchain, so `table` is not
consulted for them (a configuration that supplies `#define __has_feature(x) 0` itself is
the configuration `has_feature = some []`). -/
structure Env where
  table : String → Option MDef
  has_feature : Option (List String)
  has_attribute : Option (List String)

/-- The preprocessor state: the environment, the `#define` directives executed so far
(oldest first), the names that were redefined with a different replacement, and the
controlling expressions that were diagnosed as ill-formed. -/
structure PP where
  env : Env
  defines : List (String × MDef)
  conflicts : List String
  errors : List (List Token)

/-- The state in which a translation unit starts in configuration `e`. -/
def start (e : Env) : PP := ⟨e, [], [], []⟩

/-- The names of the `#define` directives executed so far. -/
def definedNames (s : PP) : List String := s.defines.map Prod.fst

/-! ## Directive semantics -/

/-- The `defined` operator, `#ifdef` and `#ifndef`. -/
def isDefined (e : Env) (n : String) : Bool :=
  if n = "__has_feature" then e.has_feature.isSome
  else if n = "__has_attribute" then e.has_attribute.isSome
  else (e.table n).isSome

/-- An identifier starts with a letter or an underscore. -/
def isIdent (t : Token) : Bool :=
  match t.data with
  | c :: _ => c.isAlpha || c == '_'
  | [] => false

/-- The pp-number a truth value is replaced by. -/
def boolTok (b : Bool) : Token := if b then "1" else "0"

/-- First pass over a controlling expression: `defined X`, `defined ( X )` and the
feature queries the toolchain provides are replaced by `1` or `0`.  A query the toolchain
does not provide is not a known name, so its tokens are left in place. -/
def resolve (e : Env) : List Token → List Token
  | [] => []
  | "defined" :: "(" :: x :: ")" :: rest => boolTok (isDefined e x) :: resolve e rest
  | "defined" :: x :: rest =>
      if isIdent x then boolTok (isDefined e x) :: resolve e rest
      else "defined" :: resolve e (x :: rest)
  | "__has_feature" :: "(" :: x :: ")" :: rest =>
      match e.has_feature with
      | some l => boolTok (decide (x ∈ l)) :: resolve e rest
      | none => "__has_feature" :: resolve e ("(" :: x :: ")" :: rest)
  | "__has_attribute" :: "(" :: x :: ")" :: rest =>
      match e.has_attribute with
      | some l => boolTok (decide (x ∈ l)) :: resolve e rest
      | none => "__has_attribute" :: resolve e ("(" :: x :: ")" :: rest)
  | t :: rest => t :: resolve e rest

/-- Second pass: every identifier that is left is replaced by the pp-number `0`. -/
def zeroIdents (ts : List Token) : List Token :=
  ts.map (fun t => if isIdent t then "0" else t)

/-- The value of a decimal integer token. -/
def number (t : Token) : Option Int :=
  if t.data ≠ [] ∧ t.data.all Char.isDigit = true then
    some (Int.ofNat (t.data.foldl (fun n c => 10 * n + (c.toNat - '0'.toNat)) 0))
  else none

/-- Nonterminals of the constant-expression grammar, in the fragment the headers use:
integer constants, parentheses, `!`, `&&` and `||`. -/
inductive Level
  | lor
  | lorTail (v : Int)
  | land
  | landTail (v : Int)
  | unary

/-- Truth value as an integer. -/
def ofBool (b : Bool) : Int := if b then 1 else 0

/-- Recursive-descent evaluation of a constant expression.  Returns the value and the
tokens that follow the expression, or `none` when the tokens do not start with an
expression (or the fuel ran out). -/
def parseExpr : Nat → Level → List Token → Option (Int × List Token)
  | 0, _, _ => none
  | f + 1, .lor, ts =>
      match parseExpr f .land ts with
      | some (v, rest) => parseExpr f (.lorTail v) rest
      | none => none
  | f + 1, .lorTail v, ts =>
      match ts with
      | "||" :: rest =>
          match parseExpr f .land rest with
          | some (w, rest') => parseExpr f (.lorTail (ofBool (v != 0 || w != 0))) rest'
          | none => none
      | _ => some (v, ts)
  | f + 1, .land, ts =>
      match parseExpr f .unary ts with
      | some (v, rest) => parseExpr f (.landTail v) rest
      | none => none
  | f + 1, .landTail v, ts =>
      match ts with
      | "&&" :: rest =>
          match parseExpr f .unary rest with
          | some (w, rest') => parseExpr f (.landTail (ofBool (v != 0 && w != 0))) rest'
          | none => none
      | _ => some (v, ts)
  | f + 1, .unary, ts =>
      match ts with
      | [] => none
      | "!" :: rest =>
          match parseExpr f .unary rest with
          | some (v, rest') => some (ofBool (v == 0), rest')
          | none => none
      | "(" :: rest =>
          match parseExpr f .lor rest with
          | some (v, ")" :: rest') => some (v, rest')
          | _ => none
      | t :: rest =>
          match number t with
          | some v => some (v, rest)
          | none => none

/-- A token list is a controlling constant expression with truth value `b` when the
whole list is one expression; anything else is ill-formed. -/
def evalTokens (fuel : Nat) (ts : List Token) : Option Bool :=
  match parseExpr fuel .lor ts with
  | some (v, []) => some (v != 0)
  | _ => none

/-- Evaluation of the controlling expression of `#if`: resolve `defined` and the feature
queries, replace the remaining identifiers by `0`, evaluate.  `none`: the expression is
ill-formed and is diagnosed.  The controlling expressions of the two headers name nothing
but operands of `defined` and the feature queries with their arguments, so no replacement
of other defined names is modelled here. -/
def evalIf (e : Env) (cond : List Token) : Option Bool :=
  evalTokens (4 * cond.length + 4) (zeroIdents (resolve e cond))

/-- The directive `#define name ...`.  The new definition takes effect; redefining a name
with a different definition is recorded as a conflict. -/
def define (name : String) (d : MDef) (s : PP) : PP :=
  { env := { s.env with table := fun m => if m = name then some d else s.env.table m }
    defines := s.defines ++ [(name, d)]
    conflicts :=
      match s.env.table name with
      | some d' => if d' = d then s.conflicts else s.conflicts ++ [name]
      | none => s.conflicts
    errors := s.errors }

/-- The group `#ifndef name ... #endif`. -/
def ifNotDefined (name : String) (grp : PP → PP) (s : PP) : PP :=
  if isDefined s.env name then s else grp s

/-- The group `#if cond ... #else ... #endif`.  An ill-formed controlling expression is
diagnosed and the group is then skipped the way a false one is, which is how GCC and
Clang go on after the diagnostic. -/
def if_else (cond : List Token) (grp alt : PP → PP) (s : PP) : PP :=
  match evalIf s.env cond with
  | some true => grp s
  | some false => alt s
  | none => alt { s with errors := s.errors ++ [cond] }

/-- The group `#if cond ... #endif`. -/
def if_ (cond : List Token) (grp : PP → PP) (s : PP) : PP :=
  if_else cond grp id s

/-! ## objc-clang.h -/

/-- The replacement list `__attribute__((swift_name(p)))`. -/
def swift_name_attribute (p : Token) : List Token :=
  ["__attribute__", "(", "(", "swift_name", "(", p, ")", ")", ")"]

/-- The controlling expression of line 40. -/
def featureCond : List Token :=
  ["defined", "(", "__has_feature", ")", "&&",
   "__has_feature", "(", "generalized_swift_name", ")"]

/-- The controlling expression of line 47. -/
def attributeCond : List Token :=
  ["defined", "(", "__has_attribute", ")", "&&", "__has_attribute", "(", "swift_name", ")"]

/-- The header `libtess2/objc-clang.h`, lines 9 to 53. -/
def objc_clang_h : PP → PP :=
  ifNotDefined "objc_clang_h" (fun s => s
    |> define "objc_clang_h" (.object [])
    |> ifNotDefined "SWIFT_CLASS_EXTRA" (define "SWIFT_CLASS_EXTRA" (.object []))
    |> ifNotDefined "SWIFT_CLASS"
        (define "SWIFT_CLASS" (.function ["SWIFT_NAME"] ["SWIFT_CLASS_EXTRA"]))
    |> ifNotDefined "SWIFT_CLASS_NAMED"
        (define "SWIFT_CLASS_NAMED"
          (.function ["SWIFT_NAME"] (swift_name_attribute "SWIFT_NAME" ++ ["SWIFT_CLASS_EXTRA"])))
    |> ifNotDefined "NS_ASSUME_NONNULL_BEGIN" (define "NS_ASSUME_NONNULL_BEGIN" (.object []))
    |> ifNotDefined "NS_ASSUME_NONNULL_END" (define "NS_ASSUME_NONNULL_END" (.object []))
    |> if_ ["!", "defined", "(", "SWIFT_ENUM_EXTRA", ")"]
        (define "SWIFT_ENUM_EXTRA" (.object []))
    |> if_ ["!", "defined", "(", "SWIFT_ENUM", ")"] (fun s => s
        |> define "SWIFT_ENUM" (.function ["_type", "_name"]
            ["enum", "_name", ":", "_type", "_name", ";",
             "enum", "SWIFT_ENUM_EXTRA", "_name", ":", "_type"])
        |> if_else featureCond
            (define "SWIFT_ENUM_NAMED" (.function ["_type", "_name", "SWIFT_NAME"]
              ["enum", "_name", ":", "_type", "_name",
               "SWIFT_COMPILE_NAME", "(", "SWIFT_NAME", ")", ";",
               "enum", "SWIFT_COMPILE_NAME", "(", "SWIFT_NAME", ")",
               "SWIFT_ENUM_EXTRA", "_name", ":", "_type"]))
            (define "SWIFT_ENUM_NAMED" (.function ["_type", "_name", "SWIFT_NAME"]
              ["SWIFT_ENUM", "(", "_type", ",", "_name", ")"])))
    |> if_else attributeCond
        (define "SWIFT_COMPILE_NAME" (.function ["X"] (swift_name_attribute "X")))
        (define "SWIFT_COMPILE_NAME" (.function ["X"] [])))

/-- The names objc-clang.h can define: the include guard and the nine annotation names. -/
def shimNames : List String :=
  ["objc_clang_h", "SWIFT_CLASS_EXTRA", "SWIFT_CLASS", "SWIFT_CLASS_NAMED",
   "NS_ASSUME_NONNULL_BEGIN", "NS_ASSUME_NONNULL_END", "SWIFT_ENUM_EXTRA", "SWIFT_ENUM",
   "SWIFT_ENUM_NAMED", "SWIFT_COMPILE_NAME"]

/-- The query `q` is provided and answers 1 for `x`. -/
def supports (q : Option (List String)) (x : String) : Bool :=
  match q with
  | some l => decide (x ∈ l)
  | none => false

/-! ## Expansion of program text -/

/-- A toolchain without either feature query, nothing defined. -/
def bareEnv : Env := ⟨fun _ => none, none, none⟩

/-- A toolchain with both queries that reports no support, nothing defined. -/
def noSwiftEnv : Env := ⟨fun _ => none, some [], some []⟩

/-- A toolchain that reports both. -/
def clangEnv : Env := ⟨fun _ => none, some ["generalized_swift_name"], some ["swift_name"]⟩

/-- The configuration `e` with `n` defined as `d` beforehand. -/
def withDef (e : Env) (n : String) (d : MDef) : Env :=
  { e with table := fun m => if m = n then some d else e.table m }

/-! ## Proof devices -/

/-- A `#define` that is executed when `b` holds. -/
def defineWhen (b : Bool) (n : String) (d : MDef) (s : PP) : PP :=
  if b then define n d s else s

/-- A diagnostic for the controlling expression `c` that is issued when `b` holds. -/
def diagnoseWhen (b : Bool) (c : List Token) (s : PP) : PP :=
  if b then { s with errors := s.errors ++ [c] } else s

/-- The definition lines 40 to 44 give `SWIFT_ENUM_NAMED` when the feature query is `q`. -/
def enumNamedDef (q : Option (List String)) : MDef :=
  .function ["_type", "_name", "SWIFT_NAME"]
    (if supports q "generalized_swift_name" then
      ["enum", "_name", ":", "_type", "_name",
       "SWIFT_COMPILE_NAME", "(", "SWIFT_NAME", ")", ";",
       "enum", "SWIFT_COMPILE_NAME", "(", "SWIFT_NAME", ")",
       "SWIFT_ENUM_EXTRA", "_name", ":", "_type"]
     else ["SWIFT_ENUM", "(", "_type", ",", "_name", ")"])

/-- The definition lines 47 to 51 give `SWIFT_COMPILE_NAME` when the attribute query is
`q`. -/
def compileNameDef (q : Option (List String)) : MDef :=
  .function ["X"] (if supports q "swift_name" then swift_name_attribute "X" else [])

/-- What the body of the include guard does, with every condition read in the state `s`
the header is entered in. -/
def shim (s : PP) : PP :=
  s |> defineWhen true "objc_clang_h" (.object [])
    |> defineWhen (!isDefined s.env "SWIFT_CLASS_EXTRA") "SWIFT_CLASS_EXTRA" (.object [])
    |> defineWhen (!isDefined s.env "SWIFT_CLASS") "SWIFT_CLASS"
        (.function ["SWIFT_NAME"] ["SWIFT_CLASS_EXTRA"])
    |> defineWhen (!isDefined s.env "SWIFT_CLASS_NAMED") "SWIFT_CLASS_NAMED"
        (.function ["SWIFT_NAME"] (swift_name_attribute "SWIFT_NAME" ++ ["SWIFT_CLASS_EXTRA"]))
    |> defineWhen (!isDefined s.env "NS_ASSUME_NONNULL_BEGIN") "NS_ASSUME_NONNULL_BEGIN"
        (.object [])
    |> defineWhen (!isDefined s.env "NS_ASSUME_NONNULL_END") "NS_ASSUME_NONNULL_END" (.object [])
    |> defineWhen (!isDefined s.env "SWIFT_ENUM_EXTRA") "SWIFT_ENUM_EXTRA" (.object [])
    |> defineWhen (!isDefined s.env "SWIFT_ENUM") "SWIFT_ENUM" (.function ["_type", "_name"]
        ["enum", "_name", ":", "_type", "_name", ";",
         "enum", "SWIFT_ENUM_EXTRA", "_name", ":", "_type"])
    |> diagnoseWhen (!isDefined s.env "SWIFT_ENUM" && s.env.has_feature.isNone) featureCond
    |> defineWhen (!isDefined s.env "SWIFT_ENUM") "SWIFT_ENUM_NAMED"
        (enumNamedDef s.env.has_feature)
    |> diagnoseWhen s.env.has_attribute.isNone attributeCond
    |> defineWhen true "SWIFT_COMPILE_NAME" (compileNameDef s.env.has_attribute)

/-- The names whose `#define` sits under an existence check of the same name. -/
def ownGuarded : List String :=
  ["SWIFT_CLASS_EXTRA", "SWIFT_CLASS", "SWIFT_CLASS_NAMED", "NS_ASSUME_NONNULL_BEGIN",
   "NS_ASSUME_NONNULL_END", "SWIFT_ENUM_EXTRA", "SWIFT_ENUM"]

/-- The shape the specification gives every fallback: an empty replacement list, or the
attribute `__attribute__((swift_name(p)))` alone. -/
def emptyOrAttribute (d : MDef) : Bool :=
  match d with
  | .object body => body.isEmpty
  | .function _ body =>
      body.isEmpty ||
        (match body with
         | ["__attribute__", "(", "(", "swift_name", "(", _, ")", ")", ")"] => true
         | _ => false)

/-- Whether a replacement list contains the attribute. -/
def mentionsAttribute (d : MDef) : Bool :=
  match d with
  | .object body => body.contains "__attribute__"
  | .function _ body => body.contains "__attribute__"

theorem evalIf_not_defined (e : Env) (x : Token) :
    evalIf e ["!", "defined", "(", x, ")"] = some (!isDefined e x) := by
  have h : resolve e ["!", "defined", "(", x, ")"] = ["!", boolTok (isDefined e x)] := by
    simp [resolve]
  unfold evalIf
  rw [h]
  cases isDefined e x <;> rfl

theorem evalIf_has_feature (e : Env) :
    evalIf e featureCond
      = match e.has_feature with
        | some l => some (decide ("generalized_swift_name" ∈ l))
        | none => none := by
  cases h : e.has_feature with
  | none =>
    have hr : resolve e featureCond
        = ["0", "&&", "__has_feature", "(", "generalized_swift_name", ")"] := by
      simp [featureCond, attributeCond, resolve, isDefined, h, boolTok]
    unfold evalIf
    rw [hr]
    rfl
  | some l =>
    have hr : resolve e featureCond
        = ["1", "&&", boolTok (decide ("generalized_swift_name" ∈ l))] := by
      simp [featureCond, attributeCond, resolve, isDefined, h, boolTok]
    unfold evalIf
    rw [hr]
    show _ = some (decide ("generalized_swift_name" ∈ l))
    generalize decide ("generalized_swift_name" ∈ l) = b
    cases b <;> rfl

theorem evalIf_has_attribute (e : Env) :
    evalIf e attributeCond
      = match e.has_attribute with
        | some l => some (decide ("swift_name" ∈ l))
        | none => none := by
  cases h : e.has_attribute with
  | none =>
    have hr : resolve e attributeCond
        = ["0", "&&", "__has_attribute", "(", "swift_name", ")"] := by
      simp [featureCond, attributeCond, resolve, isDefined, h, boolTok]
    unfold evalIf
    rw [hr]
    rfl
  | some l =>
    have hr : resolve e attributeCond
        = ["1", "&&", boolTok (decide ("swift_name" ∈ l))] := by
      simp [featureCond, attributeCond, resolve, isDefined, h, boolTok]
    unfold evalIf
    rw [hr]
    show _ = some (decide ("swift_name" ∈ l))
    generalize decide ("swift_name" ∈ l) = b
    cases b <;> rfl

/-! ## Conditional definitions -/

theorem defineWhen_table (b : Bool) (n : String) (d : MDef) (s : PP) (m : String) :
    (defineWhen b n d s).env.table m = if b = true ∧ m = n then some d else s.env.table m := by
  cases b <;> simp [defineWhen, define]

theorem defineWhen_has_feature (b : Bool) (n : String) (d : MDef) (s : PP) :
    (defineWhen b n d s).env.has_feature = s.env.has_feature := by
  cases b <;> rfl

theorem defineWhen_has_attribute (b : Bool) (n : String) (d : MDef) (s : PP) :
    (defineWhen b n d s).env.has_attribute = s.env.has_attribute := by
  cases b <;> rfl

theorem defineWhen_defines (b : Bool) (n : String) (d : MDef) (s : PP) :
    (defineWhen b n d s).defines = s.defines ++ (if b then [(n, d)] else []) := by
  cases b <;> simp [defineWhen, define]

theorem defineWhen_errors (b : Bool) (n : String) (d : MDef) (s : PP) :
    (defineWhen b n d s).errors = s.errors := by
  cases b <;> rfl

theorem defineWhen_isDefined (b : Bool) (n : String) (d : MDef) (s : PP) (m : String)
    (h1 : n ≠ "__has_feature") (h2 : n ≠ "__has_attribute") :
    isDefined (defineWhen b n d s).env m = ((b && decide (m = n)) || isDefined s.env m) := by
  unfold isDefined
  rw [defineWhen_table, defineWhen_has_feature, defineWhen_has_attribute]
  by_cases hm : m = n
  · subst hm
    cases b <;> simp [h1, h2]
  · simp [hm]

theorem diagnoseWhen_env (b : Bool) (c : List Token) (s : PP) :
    (diagnoseWhen b c s).env = s.env := by
  cases b <;> rfl

theorem diagnoseWhen_defines (b : Bool) (c : List Token) (s : PP) :
    (diagnoseWhen b c s).defines = s.defines := by
  cases b <;> rfl

theorem diagnoseWhen_conflicts (b : Bool) (c : List Token) (s : PP) :
    (diagnoseWhen b c s).conflicts = s.conflicts := by
  cases b <;> rfl

theorem diagnoseWhen_errors (b : Bool) (c : List Token) (s : PP) :
    (diagnoseWhen b c s).errors = s.errors ++ (if b then [c] else []) := by
  cases b <;> simp [diagnoseWhen]

theorem ifNotDefined_define (n : String) (d : MDef) (s : PP) :
    ifNotDefined n (define n d) s = defineWhen (!isDefined s.env n) n d s := by
  unfold ifNotDefined defineWhen
  cases isDefined s.env n <;> rfl

theorem if_not_defined_define (x : String) (d : MDef) (s : PP) :
    if_ ["!", "defined", "(", x, ")"] (define x d) s = defineWhen (!isDefined s.env x) x d s := by
  unfold if_ if_else defineWhen
  rw [evalIf_not_defined]
  cases isDefined s.env x <;> rfl

theorem enum_group (s : PP) :
    if_ ["!", "defined", "(", "SWIFT_ENUM", ")"] (fun s => s
        |> define "SWIFT_ENUM" (.function ["_type", "_name"]
            ["enum", "_name", ":", "_type", "_name", ";",
             "enum", "SWIFT_ENUM_EXTRA", "_name", ":", "_type"])
        |> if_else featureCond
            (define "SWIFT_ENUM_NAMED" (.function ["_type", "_name", "SWIFT_NAME"]
              ["enum", "_name", ":", "_type", "_name",
               "SWIFT_COMPILE_NAME", "(", "SWIFT_NAME", ")", ";",
               "enum", "SWIFT_COMPILE_NAME", "(", "SWIFT_NAME", ")",
               "SWIFT_ENUM_EXTRA", "_name", ":", "_type"]))
            (define "SWIFT_ENUM_NAMED" (.function ["_type", "_name", "SWIFT_NAME"]
              ["SWIFT_ENUM", "(", "_type", ",", "_name", ")"]))) s
      = (s |> defineWhen (!isDefined s.env "SWIFT_ENUM") "SWIFT_ENUM" (.function ["_type", "_name"]
            ["enum", "_name", ":", "_type", "_name", ";",
             "enum", "SWIFT_ENUM_EXTRA", "_name", ":", "_type"])
           |> diagnoseWhen (!isDefined s.env "SWIFT_ENUM" && s.env.has_feature.isNone) featureCond
           |> defineWhen (!isDefined s.env "SWIFT_ENUM") "SWIFT_ENUM_NAMED"
               (enumNamedDef s.env.has_feature)) := by
  unfold if_ if_else
  rw [evalIf_not_defined]
  cases hd : isDefined s.env "SWIFT_ENUM"
  · simp only [Bool.not_false, Bool.true_and]
    rw [evalIf_has_feature]
    show (match (match s.env.has_feature with
                 | some l => some (decide ("generalized_swift_name" ∈ l))
                 | none => none) with
          | some true => _
          | some false => _
          | none => _) = _
    cases hf : s.env.has_feature with
    | none =>
      simp only [enumNamedDef, supports, hf]
      rfl
    | some l =>
      by_cases hm : "generalized_swift_name" ∈ l
      · simp only [enumNamedDef, supports, hf, hm, decide_True, if_true]
        rfl
      · simp only [enumNamedDef, supports, hf, hm, decide_False, Bool.false_eq_true, if_false]
        rfl
  · rfl

theorem compile_name_group (s : PP) :
    if_else attributeCond
        (define "SWIFT_COMPILE_NAME" (.function ["X"] (swift_name_attribute "X")))
        (define "SWIFT_COMPILE_NAME" (.function ["X"] [])) s
      = (s |> diagnoseWhen s.env.has_attribute.isNone attributeCond
           |> defineWhen true "SWIFT_COMPILE_NAME" (compileNameDef s.env.has_attribute)) := by
  unfold if_else
  rw [evalIf_has_attribute]
  cases hf : s.env.has_attribute with
  | none =>
    simp only [compileNameDef, supports, hf]
    rfl
  | some l =>
    by_cases hm : "swift_name" ∈ l
    · simp only [compileNameDef, supports, hf, hm, decide_True, if_true]
      rfl
    · simp only [compileNameDef, supports, hf, hm, decide_False, Bool.false_eq_true, if_false]
      rfl

theorem objc_clang_h_eq (s : PP) :
    objc_clang_h s = if isDefined s.env "objc_clang_h" then s else shim s := by
  rw [objc_clang_h, show ∀ n g (s : PP), ifNotDefined n g s = if isDefined s.env n then s else g s
    from fun _ _ _ => rfl]
  split
  · rfl
  · simp only [ifNotDefined_define, if_not_defined_define, enum_group, compile_name_group]
    simp only [show ∀ n d (s : PP), define n d s = defineWhen true n d s from fun _ _ _ => rfl]
    simp [shim, defineWhen_isDefined, diagnoseWhen_env, defineWhen_has_feature,
      defineWhen_has_attribute]

theorem supports_iff (q : Option (List String)) (x : String) :
    supports q x = true ↔ ∃ l, q = some l ∧ x ∈ l := by
  cases q <;> simp [supports]

theorem defineWhen_mem_names (b : Bool) (n : String) (d : MDef) (s : PP) (m : String) :
    m ∈ definedNames (defineWhen b n d s) ↔ m ∈ definedNames s ∨ (b = true ∧ m = n) := by
  unfold definedNames
  rw [defineWhen_defines]
  cases b <;> simp

theorem diagnoseWhen_names (b : Bool) (c : List Token) (s : PP) :
    definedNames (diagnoseWhen b c s) = definedNames s := by
  cases b <;> rfl

theorem start_names (e : Env) : definedNames (start e) = [] := rfl

theorem start_env (e : Env) : (start e).env = e := rfl

theorem guard_defined (s : PP) : isDefined (objc_clang_h s).env "objc_clang_h" = true := by
  rw [objc_clang_h_eq]
  split
  · assumption
  · simp [shim, defineWhen_isDefined, diagnoseWhen_env]

theorem objc_clang_h_skip (s : PP) (h : isDefined s.env "objc_clang_h" = true) :
    objc_clang_h s = s := by
  rw [objc_clang_h_eq, if_pos h]

/-- C1. Including objc-clang.h a second time right after a first inclusion changes
nothing: from any state the second pass returns the state of the first, and run with a
fresh log it executes no `#define`, leaves the environment as the first inclusion left it,
and records neither a redefinition conflict nor a diagnostic. -/
theorem objc_clang_h_idempotent (s : PP) :
    objc_clang_h (objc_clang_h s) = objc_clang_h s ∧
    (objc_clang_h (start (objc_clang_h s).env)).defines = [] ∧
    (objc_clang_h (start (objc_clang_h s).env)).env = (objc_clang_h s).env ∧
    (objc_clang_h (start (objc_clang_h s).env)).conflicts = [] ∧
    (objc_clang_h (start (objc_clang_h s).env)).errors = [] := by
  have h2 : objc_clang_h (start (objc_clang_h s).env) = start (objc_clang_h s).env :=
    objc_clang_h_skip _ (guard_defined s)
  refine ⟨objc_clang_h_skip _ (guard_defined s), ?_, ?_, ?_, ?_⟩ <;> rw [h2] <;> rfl

theorem table_isDefined (e : Env) (m : String) (d : MDef) (h : e.table m = some d)
    (h1 : m ≠ "__has_feature") (h2 : m ≠ "__has_attribute") : isDefined e m = true := by
  simp [isDefined, h, h1, h2]

/-- C2 (amended). For each of SWIFT_CLASS_EXTRA, SWIFT_CLASS, SWIFT_CLASS_NAMED,
NS_ASSUME_NONNULL_BEGIN, NS_ASSUME_NONNULL_END, SWIFT_ENUM_EXTRA and SWIFT_ENUM, and for
SWIFT_ENUM_NAMED when SWIFT_ENUM is defined as well: if the name was defined before the
inclusion, the inclusion executes no `#define` of it and it keeps its prior definition. -/
theorem guarded_names_keep_prior_definition (e : Env) (M : String) (d : MDef)
    (hd : e.table M = some d)
    (hM : M ∈ ownGuarded ∨ (M = "SWIFT_ENUM_NAMED" ∧ isDefined e "SWIFT_ENUM" = true)) :
    M ∉ definedNames (objc_clang_h (start e)) ∧
    (objc_clang_h (start e)).env.table M = some d := by
  rw [objc_clang_h_eq]
  split
  · exact ⟨by simp [start_names], hd⟩
  · rcases hM with hM | ⟨hM, hE⟩
    · simp only [ownGuarded, List.mem_cons, List.mem_singleton, List.not_mem_nil, or_false] at hM
      rcases hM with h | h | h | h | h | h | h <;> subst h <;>
        · have hD := table_isDefined e _ d hd (by decide) (by decide)
          simp [shim, defineWhen_mem_names, defineWhen_table, diagnoseWhen_names,
            diagnoseWhen_env, start_names, start_env, hD, hd]
    · subst hM
      simp [shim, defineWhen_mem_names, defineWhen_table, diagnoseWhen_names, diagnoseWhen_env,
        start_names, start_env, hE, hd]

/-! ## Fuel of the expression parser -/

theorem parseExpr_lor (f : Nat) (ts : List Token) :
    parseExpr (f + 1) .lor ts =
      match parseExpr f .land ts with
      | some (v, rest) => parseExpr f (.lorTail v) rest
      | none => none := by
  rw [parseExpr.eq_def]

theorem parseExpr_lorTail (f : Nat) (v : Int) (ts : List Token) :
    parseExpr (f + 1) (.lorTail v) ts =
      match ts with
      | "||" :: rest =>
          match parseExpr f .land rest with
          | some (w, rest') => parseExpr f (.lorTail (ofBool (v != 0 || w != 0))) rest'
          | none => none
      | _ => some (v, ts) := by
  rw [parseExpr.eq_def]

theorem parseExpr_land (f : Nat) (ts : List Token) :
    parseExpr (f + 1) .land ts =
      match parseExpr f .unary ts with
      | some (v, rest) => parseExpr f (.landTail v) rest
      | none => none := by
  rw [parseExpr.eq_def]

theorem parseExpr_landTail (f : Nat) (v : Int) (ts : List Token) :
    parseExpr (f + 1) (.landTail v) ts =
      match ts with
      | "&&" :: rest =>
          match parseExpr f .unary rest with
          | some (w, rest') => parseExpr f (.landTail (ofBool (v != 0 && w != 0))) rest'
          | none => none
      | _ => some (v, ts) := by
  rw [parseExpr.eq_def]

theorem parseExpr_unary (f : Nat) (ts : List Token) :
    parseExpr (f + 1) .unary ts =
      match ts with
      | [] => none
      | "!" :: rest =>
          match parseExpr f .unary rest with
          | some (v, rest') => some (ofBool (v == 0), rest')
          | none => none
      | "(" :: rest =>
          match parseExpr f .lor rest with
          | some (v, ")" :: rest') => some (v, rest')
          | _ => none
      | t :: rest =>
          match number t with
          | some v => some (v, rest)
          | none => none := by
  rw [parseExpr.eq_def]

theorem parseExpr_succ (f : Nat) :
    ∀ (l : Level) (ts : List Token) (r : Int × List Token),
      parseExpr f l ts = some r → parseExpr (f + 1) l ts = some r := by
  induction f with
  | zero => intro l ts r h; simp [parseExpr] at h
  | succ f ih =>
    intro l ts r h
    cases l with
    | lor =>
      rw [parseExpr_lor] at h ⊢
      split at h
      · next v rest heq => rw [ih _ _ _ heq]; exact ih _ _ _ h
      · cases h
    | lorTail v =>
      rw [parseExpr_lorTail] at h ⊢
      split at h
      · next rest =>
        split at h
        · next w rest' heq => simp only [ih _ _ _ heq]; exact ih _ _ _ h
        · cases h
      · exact h
    | land =>
      rw [parseExpr_land] at h ⊢
      split at h
      · next v rest heq => rw [ih _ _ _ heq]; exact ih _ _ _ h
      · cases h
    | landTail v =>
      rw [parseExpr_landTail] at h ⊢
      split at h
      · next rest =>
        split at h
        · next w rest' heq => simp only [ih _ _ _ heq]; exact ih _ _ _ h
        · cases h
      · exact h
    | unary =>
      rw [parseExpr_unary] at h ⊢
      split at h
      · cases h
      · next rest =>
        split at h
        · next v rest' heq => simp only [ih _ _ _ heq]; exact h
        · cases h
      · next rest =>
        split at h
        · next v rest' heq => simp only [ih _ _ _ heq]; exact h
        · cases h
      · exact h

theorem parseExpr_le (f g : Nat) (hfg : f ≤ g) (l : Level) (ts : List Token)
    (r : Int × List Token) (h : parseExpr f l ts = some r) : parseExpr g l ts = some r := by
  induction hfg with
  | refl => exact h
  | step _ ih => exact parseExpr_succ _ _ _ _ ih

theorem parseExpr_any_fuel (n : Nat) (l : Level) (ts : List Token) (r : Int × List Token)
    (h : parseExpr n l ts = some r) (fuel : Nat) :
    parseExpr fuel l ts = none ∨ parseExpr fuel l ts = some r := by
  rcases Nat.le_total fuel n with hle | hle
  · cases hp : parseExpr fuel l ts with
    | none => exact Or.inl rfl
    | some r' =>
      have := parseExpr_le fuel n hle l ts r' hp
      rw [h] at this
      exact Or.inr this.symm
  · exact Or.inr (parseExpr_le n fuel hle l ts r h)

theorem evalTokens_leftover (n : Nat) (ts : List Token) (v : Int) (t : Token)
    (rest : List Token) (h : parseExpr n .lor ts = some (v, t :: rest)) (fuel : Nat) :
    evalTokens fuel ts = none := by
  unfold evalTokens
  rcases parseExpr_any_fuel n .lor ts _ h fuel with h' | h' <;> rw [h']

/-! ## objc-clang.h: what is defined -/

/-- C2, witness. -/
theorem guarded_names_keep_prior_definition_witness :
    (withDef noSwiftEnv "SWIFT_CLASS" (.function ["N"] ["__attribute__"])).table "SWIFT_CLASS"
        = some (.function ["N"] ["__attribute__"]) ∧
    "SWIFT_CLASS" ∉ definedNames
        (objc_clang_h
          (start (withDef noSwiftEnv "SWIFT_CLASS" (.function ["N"] ["__attribute__"])))) ∧
    (objc_clang_h (start (withDef noSwiftEnv "SWIFT_CLASS"
        (.function ["N"] ["__attribute__"])))).env.table "SWIFT_CLASS"
      = some (.function ["N"] ["__attribute__"]) :=
  ⟨by decide,
   guarded_names_keep_prior_definition
     (withDef noSwiftEnv "SWIFT_CLASS" (.function ["N"] ["__attribute__"]))
     "SWIFT_CLASS" (.function ["N"] ["__attribute__"]) (by decide) (Or.inl (by decide))⟩

/-- C2, counterexample. With SWIFT_ENUM_NAMED defined beforehand and SWIFT_ENUM not, the
include guard being undefined, the inclusion executes a `#define` of SWIFT_ENUM_NAMED and
the prior definition is replaced. -/
theorem enum_named_is_redefined :
    isDefined (withDef noSwiftEnv "SWIFT_ENUM_NAMED" (.function ["t", "n", "s"] ["enum", "n"]))
        "objc_clang_h" = false ∧
    (withDef noSwiftEnv "SWIFT_ENUM_NAMED" (.function ["t", "n", "s"] ["enum", "n"])).table
        "SWIFT_ENUM_NAMED" = some (.function ["t", "n", "s"] ["enum", "n"]) ∧
    "SWIFT_ENUM_NAMED" ∈ definedNames (objc_clang_h (start
        (withDef noSwiftEnv "SWIFT_ENUM_NAMED" (.function ["t", "n", "s"] ["enum", "n"])))) ∧
    (objc_clang_h (start (withDef noSwiftEnv "SWIFT_ENUM_NAMED"
        (.function ["t", "n", "s"] ["enum", "n"])))).env.table "SWIFT_ENUM_NAMED"
      = some (.function ["_type", "_name", "SWIFT_NAME"]
          ["SWIFT_ENUM", "(", "_type", ",", "_name", ")"]) ∧
    (objc_clang_h (start (withDef noSwiftEnv "SWIFT_ENUM_NAMED"
        (.function ["t", "n", "s"] ["enum", "n"])))).conflicts = ["SWIFT_ENUM_NAMED"] := by
  decide

/-- C3 (amended). Included where none of its names is defined, objc-clang.h executes
exactly ten `#define` directives, with these replacement lists: empty for objc_clang_h,
SWIFT_CLASS_EXTRA, NS_ASSUME_NONNULL_BEGIN, NS_ASSUME_NONNULL_END and SWIFT_ENUM_EXTRA;
`SWIFT_CLASS_EXTRA` for SWIFT_CLASS; the attribute followed by `SWIFT_CLASS_EXTRA` for
SWIFT_CLASS_NAMED, whatever the feature queries report; the two enum declarations for
SWIFT_ENUM; for SWIFT_ENUM_NAMED the enum declarations with SWIFT_COMPILE_NAME when
`__has_feature(generalized_swift_name)` is reported and `SWIFT_ENUM(_type, _name)`
otherwise; for SWIFT_COMPILE_NAME the attribute when `__has_attribute(swift_name)` is
reported and the empty list otherwise. -/
theorem installed_definitions (e : Env) (h : ∀ m ∈ shimNames, isDefined e m = false) :
    (objc_clang_h (start e)).defines =
      [("objc_clang_h", .object []),
       ("SWIFT_CLASS_EXTRA", .object []),
       ("SWIFT_CLASS", .function ["SWIFT_NAME"] ["SWIFT_CLASS_EXTRA"]),
       ("SWIFT_CLASS_NAMED", .function ["SWIFT_NAME"]
          ["__attribute__", "(", "(", "swift_name", "(", "SWIFT_NAME", ")", ")", ")",
           "SWIFT_CLASS_EXTRA"]),
       ("NS_ASSUME_NONNULL_BEGIN", .object []),
       ("NS_ASSUME_NONNULL_END", .object []),
       ("SWIFT_ENUM_EXTRA", .object []),
       ("SWIFT_ENUM", .function ["_type", "_name"]
          ["enum", "_name", ":", "_type", "_name", ";",
           "enum", "SWIFT_ENUM_EXTRA", "_name", ":", "_type"]),
       ("SWIFT_ENUM_NAMED", .function ["_type", "_name", "SWIFT_NAME"]
          (if supports e.has_feature "generalized_swift_name" then
             ["enum", "_name", ":", "_type", "_name",
              "SWIFT_COMPILE_NAME", "(", "SWIFT_NAME", ")", ";",
              "enum", "SWIFT_COMPILE_NAME", "(", "SWIFT_NAME", ")",
              "SWIFT_ENUM_EXTRA", "_name", ":", "_type"]
           else ["SWIFT_ENUM", "(", "_type", ",", "_name", ")"])),
       ("SWIFT_COMPILE_NAME", .function ["X"]
          (if supports e.has_attribute "swift_name" then
             ["__attribute__", "(", "(", "swift_name", "(", "X", ")", ")", ")"]
           else []))] := by
  simp only [shimNames, List.forall_mem_cons, List.not_mem_nil, false_implies, implies_true,
    and_true] at h
  obtain ⟨h0, h1, h2, h3, h4, h5, h6, h7, _, _⟩ := h
  rw [objc_clang_h_eq]
  simp [start_env, h0, h1, h2, h3, h4, h5, h6, h7, shim, defineWhen_defines, diagnoseWhen_defines,
    enumNamedDef, compileNameDef, swift_name_attribute, start]

/-- C3, witness. -/
theorem installed_definitions_witness :
    (∀ m ∈ shimNames, isDefined clangEnv m = false) ∧
    (objc_clang_h (start clangEnv)).defines =
      [("objc_clang_h", .object []),
       ("SWIFT_CLASS_EXTRA", .object []),
       ("SWIFT_CLASS", .function ["SWIFT_NAME"] ["SWIFT_CLASS_EXTRA"]),
       ("SWIFT_CLASS_NAMED", .function ["SWIFT_NAME"]
          ["__attribute__", "(", "(", "swift_name", "(", "SWIFT_NAME", ")", ")", ")",
           "SWIFT_CLASS_EXTRA"]),
       ("NS_ASSUME_NONNULL_BEGIN", .object []),
       ("NS_ASSUME_NONNULL_END", .object []),
       ("SWIFT_ENUM_EXTRA", .object []),
       ("SWIFT_ENUM", .function ["_type", "_name"]
          ["enum", "_name", ":", "_type", "_name", ";",
           "enum", "SWIFT_ENUM_EXTRA", "_name", ":", "_type"]),
       ("SWIFT_ENUM_NAMED", .function ["_type", "_name", "SWIFT_NAME"]
          (if supports clangEnv.has_feature "generalized_swift_name" then
             ["enum", "_name", ":", "_type", "_name",
              "SWIFT_COMPILE_NAME", "(", "SWIFT_NAME", ")", ";",
              "enum", "SWIFT_COMPILE_NAME", "(", "SWIFT_NAME", ")",
              "SWIFT_ENUM_EXTRA", "_name", ":", "_type"]
           else ["SWIFT_ENUM", "(", "_type", ",", "_name", ")"])),
       ("SWIFT_COMPILE_NAME", .function ["X"]
          (if supports clangEnv.has_attribute "swift_name" then
             ["__attribute__", "(", "(", "swift_name", "(", "X", ")", ")", ")"]
           else []))] :=
  ⟨by decide, installed_definitions clangEnv (by decide)⟩

/-- C3, counterexample. On a toolchain whose queries report no support, and with no
name defined beforehand, the replacement list installed for SWIFT_ENUM is neither empty
nor the attribute, and SWIFT_CLASS_NAMED is given the attribute although no query
reported support for it. -/
theorem fallbacks_have_other_shapes :
    (∀ m ∈ shimNames, isDefined noSwiftEnv m = false) ∧
    supports noSwiftEnv.has_feature "generalized_swift_name" = false ∧
    supports noSwiftEnv.has_attribute "swift_name" = false ∧
    (objc_clang_h (start noSwiftEnv)).env.table "SWIFT_ENUM"
      = some (.function ["_type", "_name"]
          ["enum", "_name", ":", "_type", "_name", ";",
           "enum", "SWIFT_ENUM_EXTRA", "_name", ":", "_type"]) ∧
    ((objc_clang_h (start noSwiftEnv)).defines.map (fun p => emptyOrAttribute p.2))
      = [true, true, false, false, true, true, true, false, false, true] ∧
    (objc_clang_h (start noSwiftEnv)).env.table "SWIFT_CLASS_NAMED"
      = some (.function ["SWIFT_NAME"]
          ["__attribute__", "(", "(", "swift_name", "(", "SWIFT_NAME", ")", ")", ")",
           "SWIFT_CLASS_EXTRA"]) ∧
    ((objc_clang_h (start noSwiftEnv)).defines.map (fun p => mentionsAttribute p.2))
      = [false, false, false, true, false, false, false, false, false, false] := by
  decide

theorem shim_compile_name (s : PP) :
    (shim s).env.table "SWIFT_COMPILE_NAME" = some (compileNameDef s.env.has_attribute) := by
  simp [shim, defineWhen_table]

/-- C7. With the include guard undefined, after the inclusion SWIFT_COMPILE_NAME(X) has
the replacement list `__attribute__((swift_name(X)))` if and only if `__has_attribute` is
provided and answers 1 for swift_name; in every other configuration it has the empty
replacement list.  The last clause tells the two other configurations apart: line 47 is
diagnosed exactly where the query is not provided, and the empty list is then what the
`#else` group leaves after the diagnostic; where the query is provided and answers 0 the
empty list is installed without any diagnostic. -/
theorem compile_name_selected_by_attribute_query (e : Env)
    (h : isDefined e "objc_clang_h" = false) :
    ((objc_clang_h (start e)).env.table "SWIFT_COMPILE_NAME"
        = some (.function ["X"] ["__attribute__", "(", "(", "swift_name", "(", "X", ")", ")", ")"])
      ↔ ∃ l, e.has_attribute = some l ∧ "swift_name" ∈ l) ∧
    ((¬ ∃ l, e.has_attribute = some l ∧ "swift_name" ∈ l) →
      (objc_clang_h (start e)).env.table "SWIFT_COMPILE_NAME" = some (.function ["X"] [])) ∧
    (attributeCond ∈ (objc_clang_h (start e)).errors ↔ e.has_attribute = none) := by
  rw [objc_clang_h_eq, start_env, h]
  simp only [Bool.false_eq_true, if_false, shim_compile_name, start_env, ← supports_iff]
  refine ⟨?_, ?_, ?_⟩
  · cases hs : supports e.has_attribute "swift_name" <;>
      simp [compileNameDef, hs, swift_name_attribute]
  · cases hs : supports e.has_attribute "swift_name" <;>
      simp [compileNameDef, hs, swift_name_attribute]
  · have hne : attributeCond ≠ featureCond := by decide
    cases ha : e.has_attribute <;>
      simp [shim, defineWhen_errors, diagnoseWhen_errors, start_env, ha, start, hne]

/-- C7, witness. At a toolchain that reports the swift_name attribute the attribute form
is installed, at one whose query answers 0 the empty list is, and neither run is
diagnosed. -/
theorem compile_name_selected_by_attribute_query_witness :
    (isDefined clangEnv "objc_clang_h" = false ∧
      (objc_clang_h (start clangEnv)).env.table "SWIFT_COMPILE_NAME"
        = some (.function ["X"]
            ["__attribute__", "(", "(", "swift_name", "(", "X", ")", ")", ")"]) ∧
      attributeCond ∉ (objc_clang_h (start clangEnv)).errors) ∧
    (isDefined noSwiftEnv "objc_clang_h" = false ∧
      (objc_clang_h (start noSwiftEnv)).env.table "SWIFT_COMPILE_NAME"
        = some (.function ["X"] []) ∧
      attributeCond ∉ (objc_clang_h (start noSwiftEnv)).errors) :=
  ⟨⟨by decide,
    (compile_name_selected_by_attribute_query clangEnv (by decide)).1.mpr
      ⟨["swift_name"], rfl, by decide⟩,
    fun hmem => by
      have := (compile_name_selected_by_attribute_query clangEnv (by decide)).2.2.mp hmem
      cases this⟩,
   ⟨by decide,
    (compile_name_selected_by_attribute_query noSwiftEnv (by decide)).2.1
      (fun ⟨l, hl, hm⟩ => by cases hl; cases hm),
    fun hmem => by
      have := (compile_name_selected_by_attribute_query noSwiftEnv (by decide)).2.2.mp hmem
      cases this⟩⟩

/-- C8. With the include guard undefined, the inclusion executes a `#define` of
SWIFT_ENUM_NAMED if and only if SWIFT_ENUM was undefined beforehand; so afterwards
SWIFT_ENUM_NAMED is defined if and only if it was defined beforehand or SWIFT_ENUM was
not; and where SWIFT_ENUM is defined beforehand and SWIFT_ENUM_NAMED is not,
SWIFT_ENUM_NAMED is still undefined afterwards while the eight other names are defined. -/
theorem enum_named_is_controlled_by_enum (e : Env) (h : isDefined e "objc_clang_h" = false) :
    ("SWIFT_ENUM_NAMED" ∈ definedNames (objc_clang_h (start e))
      ↔ isDefined e "SWIFT_ENUM" = false) ∧
    (isDefined (objc_clang_h (start e)).env "SWIFT_ENUM_NAMED" = true
      ↔ (isDefined e "SWIFT_ENUM_NAMED" = true ∨ isDefined e "SWIFT_ENUM" = false)) ∧
    (isDefined e "SWIFT_ENUM" = true → isDefined e "SWIFT_ENUM_NAMED" = false →
      isDefined (objc_clang_h (start e)).env "SWIFT_ENUM_NAMED" = false ∧
      ∀ m ∈ ["SWIFT_CLASS_EXTRA", "SWIFT_CLASS", "SWIFT_CLASS_NAMED", "NS_ASSUME_NONNULL_BEGIN",
             "NS_ASSUME_NONNULL_END", "SWIFT_ENUM_EXTRA", "SWIFT_ENUM", "SWIFT_COMPILE_NAME"],
        isDefined (objc_clang_h (start e)).env m = true) := by
  rw [objc_clang_h_eq, start_env, h]
  simp only [Bool.false_eq_true, if_false]
  refine ⟨?_, ?_, ?_⟩
  · simp [shim, defineWhen_mem_names, diagnoseWhen_names, start_names, start_env]
  · cases h1 : isDefined e "SWIFT_ENUM" <;> cases h2 : isDefined e "SWIFT_ENUM_NAMED" <;>
      simp [shim, defineWhen_isDefined, diagnoseWhen_env, start_env, h1, h2]
  · intro h1 h2
    simp [shim, defineWhen_isDefined, diagnoseWhen_env, start_env, h1, h2]

/-- C8, witness. -/
theorem enum_named_is_controlled_by_enum_witness :
    isDefined (withDef clangEnv "SWIFT_ENUM" (.function ["t", "n"] ["enum", "n"]))
      "objc_clang_h" = false ∧
    isDefined (objc_clang_h (start (withDef clangEnv "SWIFT_ENUM"
      (.function ["t", "n"] ["enum", "n"])))).env "SWIFT_ENUM_NAMED" = false :=
  ⟨by decide,
   ((enum_named_is_controlled_by_enum
      (withDef clangEnv "SWIFT_ENUM" (.function ["t", "n"] ["enum", "n"]))
      (by decide)).2.2 (by decide) (by decide)).1⟩

/-- C4, the code at a toolchain that provides neither query. Both feature-detection
conditionals are ill-formed there: after `defined` is resolved and the identifiers are
replaced by 0 the tokens are `0 && 0 ( 0 )`, which is not a constant expression whatever
the fuel, so each `#if` is diagnosed before its `#else` group is taken. -/
theorem feature_conditionals_ill_formed_without_queries :
    zeroIdents (resolve bareEnv featureCond) = ["0", "&&", "0", "(", "0", ")"] ∧
    zeroIdents (resolve bareEnv attributeCond) = ["0", "&&", "0", "(", "0", ")"] ∧
    (∀ fuel, evalTokens fuel (zeroIdents (resolve bareEnv featureCond)) = none) ∧
    (∀ fuel, evalTokens fuel (zeroIdents (resolve bareEnv attributeCond)) = none) ∧
    evalIf bareEnv featureCond = none ∧
    evalIf bareEnv attributeCond = none ∧
    (objc_clang_h (start bareEnv)).errors = [featureCond, attributeCond] := by
  have hp : parseExpr 8 .lor ["0", "&&", "0", "(", "0", ")"] = some (0, ["(", "0", ")"]) := by
    decide
  have h1 : zeroIdents (resolve bareEnv featureCond) = ["0", "&&", "0", "(", "0", ")"] := by
    decide
  have h2 : zeroIdents (resolve bareEnv attributeCond) = ["0", "&&", "0", "(", "0", ")"] := by
    decide
  refine ⟨h1, h2, ?_, ?_, by decide, by decide, by decide⟩
  · intro fuel; rw [h1]; exact evalTokens_leftover 8 _ _ _ _ hp fuel
  · intro fuel; rw [h2]; exact evalTokens_leftover 8 _ _ _ _ hp fuel

theorem no_diagnostic_when_queries_provided (e : Env) (lf la : List String)
    (hf : e.has_feature = some lf) (ha : e.has_attribute = some la) :
    (objc_clang_h (start e)).errors = [] := by
  rw [objc_clang_h_eq]
  split
  · rfl
  · simp [shim, defineWhen_errors, diagnoseWhen_errors, start_env, hf, ha, start]

/-! ## Expansion of the enum annotations -/

end LibTess
